import Mathlib

/-!
# The ping / metrics HTTP server

A shallow embedding of `src/services/prometheus-grafana/httpServer/code/server.go`
and the properties of its three handlers and of the routing table built in `main`.

The program is glue around two libraries (`net/http` and the Prometheus client).
Their parts that the handlers call are modelled here at the level of their
documented contract:

* a counter is a natural number and `Inc` adds one to it (the 64 bit width of the
  library's counter cell is not modelled);
* a counter vector is a finite table from label value to child counter, a child
  being created, at zero, the first time `WithLabelValues` names it;
* a response writer records a status, 200 unless a handler sets another one, and
  the bytes written so far;
* the default mux dispatches on the request path as the routing table of `main`
  says; what the mux does before it dispatches (redirecting a path that is not in
  canonical form, for instance) is not modelled, so a `Request.path` is the path
  the mux dispatches on.
-/

namespace HttpServer

/-! ## Data model -/

/-- The part of `*http.Request` the program reads (`r.URL.Path`), and the method. -/
structure Request where
  method : String
  path : String
  deriving DecidableEq, Repr

/-- What `http.ResponseWriter` has received: the status and the body written so far. -/
structure ResponseWriter where
  status : Nat
  body : String
  deriving DecidableEq, Repr

/-- A writer nothing was written to: the status is 200 unless a handler sets one. -/
def ResponseWriter.fresh : ResponseWriter := ⟨200, ""⟩

/-- The call `fmt.Fprintf(w, s)` for a format `s` without verbs: appends `s` to the body. -/
def Fprintf (w : ResponseWriter) (s : String) : ResponseWriter :=
  { w with body := w.body ++ s }

/-- The call `http.NotFound(w, r)`: status 404 and the library's fixed not-found text. -/
def NotFound (w : ResponseWriter) : ResponseWriter :=
  { status := 404, body := w.body ++ "404 page not found\n" }

/-- The child counters of `prometheus.CounterVec`, keyed by the value of its one
label (`code`), in order of creation. -/
structure CounterVec where
  children : List (String × Nat)
  deriving DecidableEq, Repr

/-- Looks up the child with label value `lv` in a table of children. -/
def findChild (lv : String) : List (String × Nat) → Option Nat
  | [] => none
  | (l, n) :: rest => if l = lv then some n else findChild lv rest

/-- The effect of `WithLabelValues(lv).Inc()` on a table of children: the child
named `lv` is incremented, and is first created at zero when the table has none. -/
def incChild (lv : String) : List (String × Nat) → List (String × Nat)
  | [] => [(lv, 0 + 1)]
  | (l, n) :: rest => if l = lv then (l, n + 1) :: rest else (l, n) :: incChild lv rest

/-- The series of the vector with label value `lv`, when it exists. -/
def CounterVec.series (v : CounterVec) (lv : String) : Option Nat :=
  findChild lv v.children

/-- The value of the series `lv`; a series that was never created counts zero. -/
def CounterVec.value (v : CounterVec) (lv : String) : Nat :=
  (v.series lv).getD 0

/-- The statement `v.WithLabelValues(lv).Inc()`. -/
def CounterVec.WithLabelValuesInc (v : CounterVec) (lv : String) : CounterVec :=
  ⟨incChild lv v.children⟩

/-- The two collectors the program declares. -/
inductive Collector where
  | pingCounter
  | httpRequestsTotal
  deriving DecidableEq, Repr

/-- The process-wide metric state: the package variables `pingCounter` and
`httpRequestsTotal`, and the collectors registered with the default registry. -/
structure Metrics where
  pingCounter : Nat
  httpRequestsTotal : CounterVec
  registry : List Collector
  deriving DecidableEq, Repr

/-- The result of `prometheus.NewCounter(...)`: a counter at zero. -/
def NewCounter : Nat := 0

/-- The result of `prometheus.NewCounterVec(...)`: a vector without children. -/
def NewCounterVec : CounterVec := ⟨[]⟩

/-- The package-level `var` block: both collectors created, none registered. -/
def packageVars : Metrics :=
  { pingCounter := NewCounter, httpRequestsTotal := NewCounterVec, registry := [] }

/-- The call `prometheus.MustRegister(c)`: fails (the library panics) when `c` is
already registered. -/
def MustRegister (c : Collector) (m : Metrics) : Option Metrics :=
  if c ∈ m.registry then none else some { m with registry := m.registry ++ [c] }

/-! ## Exposition -/

/-- Joins lines, each terminated by a newline. -/
def renderLines : List String → String
  | [] => ""
  | l :: ls => l ++ "\n" ++ renderLines ls

/-- The sample line of the unlabelled counter. -/
def pingLine (n : Nat) : String :=
  "ping_request_count " ++ toString n

/-- The sample line of one series of the labelled counter. -/
def codeLine (lv : String) (n : Nat) : String :=
  "http_requests_total\x7bcode=\"" ++ lv ++ "\"\x7d " ++ toString n

/-- Modelled from the spec: the exposition handler `promhttp.Handler()` belongs to
the metrics library and is not part of the source. Following the spec (§4.3, §6,
§9) it serialises every registered counter in the line-oriented text format: a
`# HELP` line, a `# TYPE` line and one sample line per series carrying the
current value. The series of the labelled counter are the children of the
vector, which the source creates through `WithLabelValues` only; a vector
without children has no series to serialise and contributes no line. Families
appear in name order. Values are written in decimal (the library's float
notation for large values is not modelled), and lines of collectors the program
does not declare are left out. -/
def gather (m : Metrics) : List String :=
  (if Collector.httpRequestsTotal ∈ m.registry ∧ m.httpRequestsTotal.children ≠ [] then
    ["# HELP http_requests_total Total number of HTTP requests by status code",
     "# TYPE http_requests_total counter"]
      ++ m.httpRequestsTotal.children.map (fun c => codeLine c.1 c.2)
   else [])
  ++
  (if Collector.pingCounter ∈ m.registry then
    ["# HELP ping_request_count No of request handled by Ping handler",
     "# TYPE ping_request_count counter",
     pingLine m.pingCounter]
   else [])

/-- Modelled from the spec: `promhttp.Handler().ServeHTTP(w, r)` answers with
status 200 and the exposition text of the registered counters. -/
def promhttpHandler (m : Metrics) (w : ResponseWriter) : ResponseWriter :=
  Fprintf w (renderLines (gather m))

/-- A line occurs in a body: the line, between two newlines, is a segment of the
body preceded by a newline. -/
def hasLine (body line : String) : Prop :=
  ("\n" ++ line ++ "\n").data <:+: ("\n" ++ body).data

instance (body line : String) : Decidable (hasLine body line) := by
  unfold hasLine; infer_instance

/-! ## Handlers -/

/-- The statement `httpRequestsTotal.WithLabelValues("404").Inc()`. -/
def inc404 (m : Metrics) : Metrics :=
  { m with httpRequestsTotal := m.httpRequestsTotal.WithLabelValuesInc "404" }

/-- The handler `func ping`: increments `pingCounter`, then writes `pong`. -/
def ping (m : Metrics) (w : ResponseWriter) (_req : Request) : Metrics × ResponseWriter :=
  let m1 := { m with pingCounter := m.pingCounter + 1 }
  (m1, Fprintf w "pong")

/-- The handler `func metricsHandler`: re-checks the path, then delegates to the
exposition handler. -/
def metricsHandler (m : Metrics) (w : ResponseWriter) (r : Request) :
    Metrics × ResponseWriter :=
  if r.path ≠ "/metrics" then
    (inc404 m, NotFound w)
  else
    (m, promhttpHandler m w)

/-- The anonymous function `main` registers under the pattern `/`. -/
def catchAll (m : Metrics) (w : ResponseWriter) (r : Request) : Metrics × ResponseWriter :=
  if r.path ≠ "/" ∧ r.path ≠ "/ping" ∧ r.path ≠ "/metrics" then
    (inc404 m, NotFound w)
  else
    (m, Fprintf w "Available endpoints:\n- /ping\n- /metrics")

/-! ## Routing -/

/-- The handlers of the program. -/
inductive Handler where
  | ping
  | metricsHandler
  | catchAll
  deriving DecidableEq, Repr

/-- Runs a handler. -/
def Handler.run : Handler → Metrics → ResponseWriter → Request → Metrics × ResponseWriter
  | .ping => HttpServer.ping
  | .metricsHandler => HttpServer.metricsHandler
  | .catchAll => HttpServer.catchAll

/-- The three `http.HandleFunc` calls of `main`, in order. -/
def handleFuncs : List (String × Handler) :=
  [("/ping", .ping), ("/metrics", .metricsHandler), ("/", .catchAll)]

/-- Looks a path up among the registered patterns, by exact match. -/
def findPattern (path : String) : List (String × Handler) → Option Handler
  | [] => none
  | (p, h) :: rest => if p = path then some h else findPattern path rest

/-- Modelled from the spec: the dispatch of the default mux of `net/http` is
library code. Following §4.1, a path is mapped to the handler registered under
exactly that path, and a path that matches no pattern falls through to the
handler of the pattern `/`. -/
def route (path : String) : Handler :=
  match findPattern path handleFuncs with
  | some h => h
  | none => .catchAll

/-- One request served on a fresh response writer. -/
def dispatch (m : Metrics) (req : Request) : Metrics × ResponseWriter :=
  (route req.path).run m ResponseWriter.fresh req

/-- The metric state after a sequence of requests served one after the other. -/
def serve (m : Metrics) : List Request → Metrics
  | [] => m
  | req :: rest => serve (dispatch m req).1 rest

/-- The start of `main`: both collectors are registered; the state returned is
the one the server starts to listen with. -/
def main : Option Metrics :=
  (MustRegister .pingCounter packageVars).bind (MustRegister .httpRequestsTotal)

/-- The number of requests of a sequence whose path is exactly `/ping`. -/
def countPing (reqs : List Request) : Nat :=
  (reqs.filter (fun r => decide (r.path = "/ping"))).length

/-! ## Dependence of a handler on its input -/

/-- The type of the three handlers. -/
abbrev HandlerFunc := Metrics → ResponseWriter → Request → Metrics × ResponseWriter

/-- The increase of `ping_request_count` between two states. -/
def pingDelta (before after : Metrics) : Int :=
  (after.pingCounter : Int) - before.pingCounter

/-- The increase of the series `l` of `http_requests_total` between two states. -/
def codeDelta (before after : Metrics) (l : String) : Int :=
  (after.httpRequestsTotal.value l : Int) - before.httpRequestsTotal.value l

/-- Two runs of a handler on the same path answer alike, whatever the methods and
the counter values. -/
def SameResponse (h : HandlerFunc) : Prop :=
  ∀ (m1 m2 : Metrics) (meth1 meth2 path : String),
    (h m1 ResponseWriter.fresh ⟨meth1, path⟩).2 = (h m2 ResponseWriter.fresh ⟨meth2, path⟩).2

/-- Two runs of a handler on the same path increment the same counters by the
same amounts, whatever the methods and the counter values. -/
def SameEffect (h : HandlerFunc) : Prop :=
  ∀ (m1 m2 : Metrics) (meth1 meth2 path : String),
    pingDelta m1 (h m1 ResponseWriter.fresh ⟨meth1, path⟩).1
      = pingDelta m2 (h m2 ResponseWriter.fresh ⟨meth2, path⟩).1 ∧
    ∀ l, codeDelta m1 (h m1 ResponseWriter.fresh ⟨meth1, path⟩).1 l
      = codeDelta m2 (h m2 ResponseWriter.fresh ⟨meth2, path⟩).1 l

/-! ## Routing and dispatch, path by path -/

theorem route_ping : route "/ping" = .ping := by decide

theorem route_metrics : route "/metrics" = .metricsHandler := by decide

theorem route_other (p : String) (h1 : p ≠ "/ping") (h2 : p ≠ "/metrics") :
    route p = .catchAll := by
  unfold route handleFuncs
  simp only [findPattern]
  rw [if_neg (Ne.symm h1), if_neg (Ne.symm h2)]
  by_cases h : "/" = p
  · rw [if_pos h]
  · rw [if_neg h]

theorem empty_append (s : String) : "" ++ s = s := by
  apply String.ext; simp

theorem dispatch_ping (m : Metrics) (meth : String) :
    dispatch m ⟨meth, "/ping"⟩
      = ({ m with pingCounter := m.pingCounter + 1 }, ⟨200, "pong"⟩) := by
  simp [dispatch, route_ping, Handler.run, ping, Fprintf, ResponseWriter.fresh, empty_append]

theorem dispatch_metrics (m : Metrics) (meth : String) :
    dispatch m ⟨meth, "/metrics"⟩ = (m, ⟨200, renderLines (gather m)⟩) := by
  simp [dispatch, route_metrics, Handler.run, metricsHandler, promhttpHandler, Fprintf,
    ResponseWriter.fresh, empty_append]

theorem dispatch_root (m : Metrics) (meth : String) :
    dispatch m ⟨meth, "/"⟩ = (m, ⟨200, "Available endpoints:\n- /ping\n- /metrics"⟩) := by
  have h : route "/" = .catchAll := by decide
  simp [dispatch, h, Handler.run, catchAll, Fprintf, ResponseWriter.fresh, empty_append]

theorem dispatch_other (m : Metrics) (req : Request) (h0 : req.path ≠ "/")
    (h1 : req.path ≠ "/ping") (h2 : req.path ≠ "/metrics") :
    dispatch m req = (inc404 m, ⟨404, "404 page not found\n"⟩) := by
  simp [dispatch, route_other req.path h1 h2, Handler.run, catchAll, h0, h1, h2, NotFound,
    ResponseWriter.fresh, empty_append]

/-- The four cases of a dispatched request, by path. -/
theorem dispatch_cases (m : Metrics) (req : Request) :
    (req.path = "/ping" ∧
        dispatch m req = ({ m with pingCounter := m.pingCounter + 1 }, ⟨200, "pong"⟩)) ∨
    (req.path = "/metrics" ∧ dispatch m req = (m, ⟨200, renderLines (gather m)⟩)) ∨
    (req.path = "/" ∧
        dispatch m req = (m, ⟨200, "Available endpoints:\n- /ping\n- /metrics"⟩)) ∨
    ((req.path ≠ "/" ∧ req.path ≠ "/ping" ∧ req.path ≠ "/metrics") ∧
        dispatch m req = (inc404 m, ⟨404, "404 page not found\n"⟩)) := by
  obtain ⟨meth, p⟩ := req
  by_cases h1 : p = "/ping"
  · subst h1; exact Or.inl ⟨rfl, dispatch_ping m meth⟩
  by_cases h2 : p = "/metrics"
  · subst h2; exact Or.inr (Or.inl ⟨rfl, dispatch_metrics m meth⟩)
  by_cases h0 : p = "/"
  · subst h0; exact Or.inr (Or.inr (Or.inl ⟨rfl, dispatch_root m meth⟩))
  · exact Or.inr (Or.inr (Or.inr ⟨⟨h0, h1, h2⟩, dispatch_other m ⟨meth, p⟩ h0 h1 h2⟩))

/-! ## Series of the labelled counter -/

theorem findChild_incChild (k lv : String) (cs : List (String × Nat)) :
    findChild k (incChild lv cs)
      = if k = lv then some ((findChild lv cs).getD 0 + 1) else findChild k cs := by
  induction cs with
  | nil =>
    by_cases h : k = lv
    · simp [incChild, findChild, h]
    · simp [incChild, findChild, h, Ne.symm h]
  | cons c rest ih =>
    obtain ⟨l, n⟩ := c
    by_cases hl : l = lv
    · subst hl
      by_cases h : k = l
      · simp [incChild, findChild, h]
      · simp [incChild, findChild, h, Ne.symm h]
    · by_cases h : k = lv
      · subst h
        simp [incChild, findChild, hl, ih]
      · by_cases hk : l = k
        · simp [incChild, findChild, hl, h, hk]
        · simp [incChild, findChild, hl, h, hk, ih]

theorem mem_of_findChild (lv : String) (v : Nat) (cs : List (String × Nat))
    (h : findChild lv cs = some v) : (lv, v) ∈ cs := by
  induction cs with
  | nil => cases h
  | cons c rest ih =>
    obtain ⟨l, n⟩ := c
    by_cases hl : l = lv
    · simp [findChild, hl] at h
      simp [hl, h]
    · simp [findChild, hl] at h
      exact List.mem_cons_of_mem _ (ih h)

theorem value_inc404 (m : Metrics) (l : String) :
    (inc404 m).httpRequestsTotal.value l
      = if l = "404" then m.httpRequestsTotal.value "404" + 1
        else m.httpRequestsTotal.value l := by
  unfold inc404 CounterVec.value CounterVec.series CounterVec.WithLabelValuesInc
  simp only [findChild_incChild]
  by_cases h : l = "404"
  · simp [h]
  · simp [h]

theorem series_inc404_other (m : Metrics) (l : String) (h : l ≠ "404") :
    (inc404 m).httpRequestsTotal.series l = m.httpRequestsTotal.series l := by
  unfold inc404 CounterVec.series CounterVec.WithLabelValuesInc
  simp [findChild_incChild, h]

theorem series404_inc404 (m : Metrics) :
    (inc404 m).httpRequestsTotal.series "404"
      = some (m.httpRequestsTotal.value "404" + 1) := by
  unfold inc404 CounterVec.value CounterVec.series CounterVec.WithLabelValuesInc
  simp [findChild_incChild]

theorem codeDelta_inc404 (m : Metrics) (l : String) :
    codeDelta m (inc404 m) l = if l = "404" then 1 else 0 := by
  unfold codeDelta
  rw [value_inc404]
  split
  · next h => subst h; push_cast; ring
  · simp

/-! ## States reached from the start -/

theorem main_eq :
    main = some ⟨0, ⟨[]⟩, [Collector.pingCounter, Collector.httpRequestsTotal]⟩ := by
  decide

theorem registry_dispatch (m : Metrics) (req : Request) :
    (dispatch m req).1.registry = m.registry := by
  rcases dispatch_cases m req with ⟨_, h⟩ | ⟨_, h⟩ | ⟨_, h⟩ | ⟨_, h⟩ <;> simp [h, inc404]

theorem registry_serve (m : Metrics) (reqs : List Request) :
    (serve m reqs).registry = m.registry := by
  induction reqs generalizing m with
  | nil => rfl
  | cons req rest ih => rw [serve, ih, registry_dispatch]

theorem series404_dispatch (m : Metrics) (req : Request)
    (h : m.httpRequestsTotal.series "404" ≠ none ∨
      (req.path ≠ "/" ∧ req.path ≠ "/ping" ∧ req.path ≠ "/metrics")) :
    (dispatch m req).1.httpRequestsTotal.series "404" ≠ none := by
  rcases dispatch_cases m req with ⟨hp, e⟩ | ⟨hp, e⟩ | ⟨hp, e⟩ | ⟨_, e⟩
  · rcases h with h | h
    · simpa [e] using h
    · exact absurd hp h.2.1
  · rcases h with h | h
    · simpa [e] using h
    · exact absurd hp h.2.2
  · rcases h with h | h
    · simpa [e] using h
    · exact absurd hp h.1
  · simp [e, series404_inc404]

theorem series404_serve (m : Metrics) (reqs : List Request)
    (h : m.httpRequestsTotal.series "404" ≠ none ∨
      ∃ r ∈ reqs, r.path ≠ "/" ∧ r.path ≠ "/ping" ∧ r.path ≠ "/metrics") :
    (serve m reqs).httpRequestsTotal.series "404" ≠ none := by
  induction reqs generalizing m with
  | nil =>
    rcases h with h | ⟨r, hr, _⟩
    · exact h
    · cases hr
  | cons req rest ih =>
    rw [serve]
    apply ih
    rcases h with h | ⟨r, hr, hnf⟩
    · exact Or.inl (series404_dispatch m req (Or.inl h))
    · rcases List.mem_cons.mp hr with rfl | hr
      · exact Or.inl (series404_dispatch m r (Or.inr hnf))
      · exact Or.inr ⟨r, hr, hnf⟩

theorem series_serve_other (m : Metrics) (reqs : List Request) (l : String) (h : l ≠ "404") :
    (serve m reqs).httpRequestsTotal.series l = m.httpRequestsTotal.series l := by
  induction reqs generalizing m with
  | nil => rfl
  | cons req rest ih =>
    rw [serve, ih]
    rcases dispatch_cases m req with ⟨_, e⟩ | ⟨_, e⟩ | ⟨_, e⟩ | ⟨_, e⟩
    · simp [e]
    · simp [e]
    · simp [e]
    · rw [e]
      exact series_inc404_other m l h

theorem vec_serve_of_known (m : Metrics) (reqs : List Request)
    (h : ∀ r ∈ reqs, r.path = "/" ∨ r.path = "/ping" ∨ r.path = "/metrics") :
    (serve m reqs).httpRequestsTotal = m.httpRequestsTotal := by
  induction reqs generalizing m with
  | nil => rfl
  | cons req rest ih =>
    rw [serve, ih _ (fun r hr => h r (List.mem_cons_of_mem _ hr))]
    have hreq := h req (List.mem_cons_self _ _)
    rcases dispatch_cases m req with ⟨_, e⟩ | ⟨_, e⟩ | ⟨_, e⟩ | ⟨⟨h0, h1, h2⟩, _⟩
    · simp [e]
    · simp [e]
    · simp [e]
    · rcases hreq with h | h | h
      · exact absurd h h0
      · exact absurd h h1
      · exact absurd h h2

theorem pingCounter_dispatch_le (m : Metrics) (req : Request) :
    m.pingCounter ≤ (dispatch m req).1.pingCounter := by
  rcases dispatch_cases m req with ⟨_, e⟩ | ⟨_, e⟩ | ⟨_, e⟩ | ⟨_, e⟩ <;> simp [e, inc404]

theorem value_dispatch_le (m : Metrics) (req : Request) (l : String) :
    m.httpRequestsTotal.value l ≤ (dispatch m req).1.httpRequestsTotal.value l := by
  rcases dispatch_cases m req with ⟨_, e⟩ | ⟨_, e⟩ | ⟨_, e⟩ | ⟨_, e⟩
  · simp [e]
  · simp [e]
  · simp [e]
  · rw [e]
    simp only [value_inc404]
    split
    · next h => rw [h]; exact Nat.le_succ _
    · exact Nat.le_refl _

/-! ## Lines of the exposition -/

theorem hasLine_iff (body line : String) :
    hasLine body line ↔ ∃ s t, s ++ ('\n' :: (line.data ++ ['\n'])) ++ t = '\n' :: body.data := by
  unfold hasLine
  rfl

theorem hasLine_renderLines (line : String) (ls : List String) (h : line ∈ ls) :
    hasLine (renderLines ls) line := by
  induction ls with
  | nil => cases h
  | cons l rest ih =>
    rw [hasLine_iff]
    rcases List.mem_cons.mp h with rfl | hmem
    · exact ⟨[], (renderLines rest).data, by simp [renderLines]⟩
    · obtain ⟨s, t, hst⟩ := (hasLine_iff _ _).mp (ih hmem)
      refine ⟨'\n' :: l.data ++ s, t, ?_⟩
      have : (renderLines (l :: rest)).data = l.data ++ ('\n' :: (renderLines rest).data) := by
        simp [renderLines]
      rw [this, ← hst]
      simp

theorem pingLine_mem_gather (m : Metrics) (h : Collector.pingCounter ∈ m.registry) :
    pingLine m.pingCounter ∈ gather m := by
  simp [gather, h]

theorem codeLine_mem_gather (m : Metrics) (lv : String) (v : Nat)
    (h : Collector.httpRequestsTotal ∈ m.registry)
    (hs : m.httpRequestsTotal.series lv = some v) :
    codeLine lv v ∈ gather m := by
  have hmem : (lv, v) ∈ m.httpRequestsTotal.children := mem_of_findChild lv v _ hs
  have hne : m.httpRequestsTotal.children ≠ [] := List.ne_nil_of_mem hmem
  simp only [gather, h, hne, ne_eq, not_false_eq_true, and_self, if_true]
  apply List.mem_append_left
  apply List.mem_append_right
  exact List.mem_map.mpr ⟨(lv, v), hmem, rfl⟩

theorem digitChar_ne_brace (k : Nat) (h : k < 10) : Nat.digitChar k ≠ '\x7b' := by
  interval_cases k <;> decide

theorem brace_not_mem_toDigitsCore (fuel n : Nat) (ds : List Char)
    (hds : '\x7b' ∉ ds) : '\x7b' ∉ Nat.toDigitsCore 10 fuel n ds := by
  induction fuel generalizing n ds with
  | zero => simpa [Nat.toDigitsCore] using hds
  | succ fuel ih =>
    have hd : '\x7b' ∉ Nat.digitChar (n % 10) :: ds := by
      intro hmem
      rcases List.mem_cons.mp hmem with h | h
      · exact digitChar_ne_brace (n % 10) (Nat.mod_lt _ (by decide)) h.symm
      · exact hds h
    rw [Nat.toDigitsCore]
    split
    · exact hd
    · exact ih _ _ hd

theorem brace_not_mem_toString (n : Nat) : '\x7b' ∉ (toString n).data := by
  show '\x7b' ∉ Nat.toDigitsCore 10 (n + 1) n []
  exact brace_not_mem_toDigitsCore _ _ _ (by simp)

theorem brace_mem_of_hasLine_codeLine (body lv : String) (v : Nat)
    (h : hasLine body (codeLine lv v)) : '\x7b' ∈ body.data := by
  obtain ⟨s, t, hst⟩ := (hasLine_iff _ _).mp h
  have h1 : '\x7b' ∈ (codeLine lv v).data := by
    simp [codeLine]
  have h2 : '\x7b' ∈ '\n' :: body.data := by
    rw [← hst]
    simp [h1]
  rcases List.mem_cons.mp h2 with h3 | h3
  · exact absurd h3 (by decide)
  · exact h3

theorem brace_not_mem_renderLines (ls : List String) (h : ∀ l ∈ ls, '\x7b' ∉ l.data) :
    '\x7b' ∉ (renderLines ls).data := by
  induction ls with
  | nil => simp [renderLines]
  | cons l rest ih =>
    have h1 := h l (List.mem_cons_self _ _)
    have h2 := ih (fun x hx => h x (List.mem_cons_of_mem _ hx))
    have h3 : '\x7b' ∉ "\n".data := by decide
    simp [renderLines, h1, h2, h3]

theorem no_codeLine_without_series (m : Metrics) (hc : m.httpRequestsTotal.children = [])
    (lv : String) (v : Nat) : ¬ hasLine (renderLines (gather m)) (codeLine lv v) := by
  intro h
  refine brace_not_mem_renderLines (gather m) ?_ (brace_mem_of_hasLine_codeLine _ lv v h)
  intro l hl
  have hp : '\x7b' ∉ (pingLine m.pingCounter).data := by
    have := brace_not_mem_toString m.pingCounter
    have h0 : '\x7b' ∉ "ping_request_count ".data := by decide
    simp [pingLine, this, h0]
  by_cases hr : Collector.pingCounter ∈ m.registry
  · simp [gather, hc, hr] at hl
    rcases hl with rfl | rfl | rfl
    · decide
    · decide
    · exact hp
  · simp [gather, hc, hr] at hl

/-! ## Effects of the handlers -/

theorem sameEffect_ping : SameEffect ping := by
  intro m1 m2 meth1 meth2 path
  simp [ping, pingDelta, codeDelta]

theorem sameEffect_metricsHandler : SameEffect metricsHandler := by
  intro m1 m2 meth1 meth2 path
  by_cases h : path = "/metrics"
  · simp [metricsHandler, h, pingDelta, codeDelta]
  · simp only [metricsHandler, ne_eq, h, not_false_eq_true, if_true, codeDelta_inc404]
    simp [pingDelta, inc404]

theorem sameEffect_catchAll : SameEffect catchAll := by
  intro m1 m2 meth1 meth2 path
  by_cases h : path ≠ "/" ∧ path ≠ "/ping" ∧ path ≠ "/metrics"
  · simp only [catchAll, if_pos h, codeDelta_inc404]
    simp [pingDelta, inc404]
  · simp only [catchAll, if_neg h]
    simp [pingDelta, codeDelta]

/-! ## The counters -/

/-- C1: after any sequence of requests dispatched through the router, from any
counter state, `ping_request_count` equals its value before plus the number of
requests of the sequence whose path is exactly `/ping`. -/
theorem ping_count_after_serve (m : Metrics) (reqs : List Request) :
    (serve m reqs).pingCounter = m.pingCounter + countPing reqs := by
  induction reqs generalizing m with
  | nil => simp [serve, countPing]
  | cons req rest ih =>
    have hstep : (dispatch m req).1.pingCounter
        = m.pingCounter + (if req.path = "/ping" then 1 else 0) := by
      rcases dispatch_cases m req with ⟨hp, h⟩ | ⟨hp, h⟩ | ⟨hp, h⟩ | ⟨⟨h0, h1, h2⟩, h⟩
      · simp [h, hp]
      · simp [h, hp]
      · simp [h, hp]
      · simp [h, h1, inc404]
    rw [serve, ih, hstep]
    by_cases hp : req.path = "/ping"
    · simp [countPing, List.filter_cons, hp]; omega
    · simp [countPing, List.filter_cons, hp]

/-- C6: the server starts with both counters at zero; every request, from every
state, leaves `ping_request_count` and every series of `http_requests_total`
non-negative and at least as large as before; and so does every sequence of
requests, in particular from the start. -/
theorem counters_monotone :
    (∃ m0, main = some m0 ∧ m0.pingCounter = 0 ∧ ∀ l, m0.httpRequestsTotal.value l = 0) ∧
    (∀ (m : Metrics) (req : Request),
      0 ≤ (dispatch m req).1.pingCounter ∧
      m.pingCounter ≤ (dispatch m req).1.pingCounter ∧
      ∀ l, 0 ≤ (dispatch m req).1.httpRequestsTotal.value l ∧
        m.httpRequestsTotal.value l ≤ (dispatch m req).1.httpRequestsTotal.value l) ∧
    (∀ (m : Metrics) (reqs : List Request),
      m.pingCounter ≤ (serve m reqs).pingCounter ∧
      ∀ l, m.httpRequestsTotal.value l ≤ (serve m reqs).httpRequestsTotal.value l) := by
  refine ⟨⟨_, main_eq, rfl, fun l => rfl⟩, ?_, ?_⟩
  · intro m req
    exact ⟨Nat.zero_le _, pingCounter_dispatch_le m req,
      fun l => ⟨Nat.zero_le _, value_dispatch_le m req l⟩⟩
  · intro m reqs
    induction reqs generalizing m with
    | nil => exact ⟨Nat.le_refl _, fun l => Nat.le_refl _⟩
    | cons req rest ih =>
      obtain ⟨h1, h2⟩ := ih (dispatch m req).1
      exact ⟨Nat.le_trans (pingCounter_dispatch_le m req) h1,
        fun l => Nat.le_trans (value_dispatch_le m req l) (h2 l)⟩

/-- C10: a request to `/ping` leaves the labelled counter as it is; a request
answered 404 leaves `ping_request_count` as it is and every series other than
`code="404"` as it is, present or absent; requests to `/` and to `/metrics`
leave the whole metric state as it is. Hence every request leaves one of the two
counters untouched and never touches a series with another label value, and in
every state reached from the start no series with another label value exists. -/
theorem dispatch_frame :
    (∀ (m : Metrics) (meth : String),
      (dispatch m ⟨meth, "/ping"⟩).1.httpRequestsTotal = m.httpRequestsTotal) ∧
    (∀ (m : Metrics) (req : Request), (dispatch m req).2.status = 404 →
      (dispatch m req).1.pingCounter = m.pingCounter ∧
      ∀ l, l ≠ "404" →
        (dispatch m req).1.httpRequestsTotal.series l = m.httpRequestsTotal.series l) ∧
    (∀ (m : Metrics) (meth : String),
      (dispatch m ⟨meth, "/"⟩).1 = m ∧ (dispatch m ⟨meth, "/metrics"⟩).1 = m) ∧
    (∀ (m : Metrics) (req : Request),
      ((dispatch m req).1.pingCounter = m.pingCounter ∨
        (dispatch m req).1.httpRequestsTotal = m.httpRequestsTotal) ∧
      ∀ l, l ≠ "404" →
        (dispatch m req).1.httpRequestsTotal.series l = m.httpRequestsTotal.series l) ∧
    (∀ (reqs : List Request) (l : String), l ≠ "404" →
      ∃ m0, main = some m0 ∧ (serve m0 reqs).httpRequestsTotal.series l = none) := by
  refine ⟨?_, ?_, ?_, ?_, ?_⟩
  · intro m meth
    rw [dispatch_ping]
  · intro m req hs
    rcases dispatch_cases m req with ⟨_, e⟩ | ⟨_, e⟩ | ⟨_, e⟩ | ⟨_, e⟩
    · rw [e] at hs
      have h200 : (200 : Nat) = 404 := hs
      exact absurd h200 (by decide)
    · rw [e] at hs
      have h200 : (200 : Nat) = 404 := hs
      exact absurd h200 (by decide)
    · rw [e] at hs
      have h200 : (200 : Nat) = 404 := hs
      exact absurd h200 (by decide)
    · rw [e]
      exact ⟨rfl, fun l hl => series_inc404_other m l hl⟩
  · intro m meth
    rw [dispatch_root, dispatch_metrics]
    exact ⟨rfl, rfl⟩
  · intro m req
    rcases dispatch_cases m req with ⟨_, e⟩ | ⟨_, e⟩ | ⟨_, e⟩ | ⟨_, e⟩
    · rw [e]; exact ⟨Or.inr rfl, fun l _ => rfl⟩
    · rw [e]; exact ⟨Or.inl rfl, fun l _ => rfl⟩
    · rw [e]; exact ⟨Or.inl rfl, fun l _ => rfl⟩
    · rw [e]; exact ⟨Or.inl rfl, fun l hl => series_inc404_other m l hl⟩
  · intro reqs l hl
    refine ⟨_, main_eq, ?_⟩
    rw [series_serve_other _ reqs l hl]
    rfl

/-- C10, on a request to `/nope` in a state with a series `code="200"`, and on
the run `/nope`, `/ping` from the start. -/
theorem dispatch_frame_witness :
    ((dispatch ⟨3, ⟨[("200", 8), ("404", 1)]⟩, []⟩ ⟨"GET", "/nope"⟩).1.pingCounter = 3 ∧
      (dispatch ⟨3, ⟨[("200", 8), ("404", 1)]⟩, []⟩
        ⟨"GET", "/nope"⟩).1.httpRequestsTotal.series "200"
        = (CounterVec.mk [("200", 8), ("404", 1)]).series "200") ∧
    (∃ m0, main = some m0 ∧
      (serve m0 [⟨"GET", "/nope"⟩, ⟨"GET", "/ping"⟩]).httpRequestsTotal.series "200" = none) :=
  ⟨⟨(dispatch_frame.2.1 ⟨3, ⟨[("200", 8), ("404", 1)]⟩, []⟩ ⟨"GET", "/nope"⟩ (by decide)).1,
    (dispatch_frame.2.1 ⟨3, ⟨[("200", 8), ("404", 1)]⟩, []⟩ ⟨"GET", "/nope"⟩ (by decide)).2
      "200" (by decide)⟩,
   dispatch_frame.2.2.2.2 [⟨"GET", "/nope"⟩, ⟨"GET", "/ping"⟩] "200" (by decide)⟩

/-! ## The responses, path by path -/

/-- C3: a request to `/ping`, whatever the method and the counter state, is
answered with status 200 and body `pong`, and raises `ping_request_count` by
exactly one. -/
theorem ping_request (m : Metrics) (meth : String) :
    (dispatch m ⟨meth, "/ping"⟩).2.status = 200 ∧
    (dispatch m ⟨meth, "/ping"⟩).2.body = "pong" ∧
    (dispatch m ⟨meth, "/ping"⟩).1.pingCounter = m.pingCounter + 1 := by
  rw [dispatch_ping]
  exact ⟨rfl, rfl, rfl⟩

/-- C4: a request to `/`, whatever the method and the counter state, is answered
with status 200 and the help text, which has two newlines and no trailing one. -/
theorem root_request (m : Metrics) (meth : String) :
    (dispatch m ⟨meth, "/"⟩).2.status = 200 ∧
    (dispatch m ⟨meth, "/"⟩).2.body = "Available endpoints:\n- /ping\n- /metrics" ∧
    (dispatch m ⟨meth, "/"⟩).2.body.data.count '\n' = 2 ∧
    (dispatch m ⟨meth, "/"⟩).2.body.data.getLast? = some 's' := by
  rw [dispatch_root]
  refine ⟨rfl, rfl, ?_, ?_⟩
  · show "Available endpoints:\n- /ping\n- /metrics".data.count '\n' = 2
    decide
  · show "Available endpoints:\n- /ping\n- /metrics".data.getLast? = some 's'
    decide

/-- C2: a request whose path is none of `/`, `/ping` and `/metrics` is answered
with status 404 and raises `http_requests_total{code="404"}` by exactly one. -/
theorem unknown_path_not_found (m : Metrics) (req : Request)
    (h0 : req.path ≠ "/") (h1 : req.path ≠ "/ping") (h2 : req.path ≠ "/metrics") :
    (dispatch m req).2.status = 404 ∧
    (dispatch m req).1.httpRequestsTotal.value "404"
      = m.httpRequestsTotal.value "404" + 1 := by
  rw [dispatch_other m req h0 h1 h2]
  exact ⟨rfl, by simp [value_inc404]⟩

/-- C2, at the near-misses `/ping/`, `/Ping` and `/metrics/x`, from a state in
which the series already counts 7. -/
theorem unknown_path_not_found_witness :
    ((dispatch ⟨3, ⟨[("404", 7)]⟩, []⟩ ⟨"GET", "/ping/"⟩).2.status = 404 ∧
      (dispatch ⟨3, ⟨[("404", 7)]⟩, []⟩ ⟨"GET", "/ping/"⟩).1.httpRequestsTotal.value "404"
        = (CounterVec.mk [("404", 7)]).value "404" + 1) ∧
    (dispatch packageVars ⟨"POST", "/Ping"⟩).2.status = 404 ∧
    (dispatch packageVars ⟨"GET", "/metrics/x"⟩).2.status = 404 :=
  ⟨unknown_path_not_found ⟨3, ⟨[("404", 7)]⟩, []⟩ ⟨"GET", "/ping/"⟩
      (by decide) (by decide) (by decide),
   (unknown_path_not_found packageVars ⟨"POST", "/Ping"⟩ (by decide) (by decide) (by decide)).1,
   (unknown_path_not_found packageVars ⟨"GET", "/metrics/x"⟩
      (by decide) (by decide) (by decide)).1⟩

/-- C5, as stated, fails in the state the server starts with: `main` succeeds,
`/metrics` answers 200, and the body has no sample line for
`http_requests_total{code="404"}`, neither with the value 0 nor with any other. -/
theorem metrics_at_start_lacks_code_line :
    main = some ⟨0, ⟨[]⟩, [Collector.pingCounter, Collector.httpRequestsTotal]⟩ ∧
    (dispatch ⟨0, ⟨[]⟩, [Collector.pingCounter, Collector.httpRequestsTotal]⟩
        ⟨"GET", "/metrics"⟩).2
      = ⟨200, "# HELP ping_request_count No of request handled by Ping handler\n" ++
          "# TYPE ping_request_count counter\nping_request_count 0\n"⟩ ∧
    ¬ hasLine
        (dispatch ⟨0, ⟨[]⟩, [Collector.pingCounter, Collector.httpRequestsTotal]⟩
          ⟨"GET", "/metrics"⟩).2.body
        (codeLine "404" ((CounterVec.mk []).value "404")) ∧
    ∀ v, ¬ hasLine
        (dispatch ⟨0, ⟨[]⟩, [Collector.pingCounter, Collector.httpRequestsTotal]⟩
          ⟨"GET", "/metrics"⟩).2.body
        (codeLine "404" v) := by
  refine ⟨main_eq, by decide, ?_, ?_⟩
  · rw [dispatch_metrics]
    exact no_codeLine_without_series _ rfl _ _
  · intro v
    rw [dispatch_metrics]
    exact no_codeLine_without_series _ rfl _ _

/-- C5, amended: `main` succeeds, and in every state reached from it by a
sequence of requests a request to `/metrics` is answered with status 200 and a
body that has the sample line of `ping_request_count` with its current value;
the body has the sample line of `http_requests_total{code="404"}` with its
current value when some request of the sequence was resolved as not found, and
has no sample line of that series when none was. -/
theorem metrics_exposition (reqs : List Request) (meth : String) :
    ∃ m0, main = some m0 ∧
      (dispatch (serve m0 reqs) ⟨meth, "/metrics"⟩).2.status = 200 ∧
      hasLine (dispatch (serve m0 reqs) ⟨meth, "/metrics"⟩).2.body
        (pingLine (serve m0 reqs).pingCounter) ∧
      ((∃ r ∈ reqs, r.path ≠ "/" ∧ r.path ≠ "/ping" ∧ r.path ≠ "/metrics") →
        hasLine (dispatch (serve m0 reqs) ⟨meth, "/metrics"⟩).2.body
          (codeLine "404" ((serve m0 reqs).httpRequestsTotal.value "404"))) ∧
      ((∀ r ∈ reqs, r.path = "/" ∨ r.path = "/ping" ∨ r.path = "/metrics") →
        ∀ v, ¬ hasLine (dispatch (serve m0 reqs) ⟨meth, "/metrics"⟩).2.body
          (codeLine "404" v)) := by
  refine ⟨_, main_eq, ?_⟩
  rw [dispatch_metrics]
  refine ⟨rfl, ?_, ?_, ?_⟩
  · apply hasLine_renderLines
    apply pingLine_mem_gather
    rw [registry_serve]
    decide
  · intro hnf
    have hs := series404_serve ⟨0, ⟨[]⟩, [Collector.pingCounter, Collector.httpRequestsTotal]⟩
      reqs (Or.inr hnf)
    obtain ⟨v, hv⟩ := Option.ne_none_iff_exists'.mp hs
    apply hasLine_renderLines
    apply codeLine_mem_gather
    · rw [registry_serve]
      decide
    · simp [CounterVec.value, hv]
  · intro hk v
    apply no_codeLine_without_series
    rw [vec_serve_of_known _ reqs hk]

/-- C5, amended, on a run: after `/ping`, `/nope`, `/ping/` the body of
`/metrics` has the line `http_requests_total{code="404"} 2`; after `/ping`
alone it has no such line. -/
theorem metrics_exposition_witness :
    (∃ m0, main = some m0 ∧
      hasLine (dispatch (serve m0 [⟨"GET", "/ping"⟩, ⟨"GET", "/nope"⟩, ⟨"GET", "/ping/"⟩])
        ⟨"GET", "/metrics"⟩).2.body
        (codeLine "404"
          ((serve m0 [⟨"GET", "/ping"⟩, ⟨"GET", "/nope"⟩,
            ⟨"GET", "/ping/"⟩]).httpRequestsTotal.value "404"))) ∧
    (∃ m0, main = some m0 ∧
      ¬ hasLine (dispatch (serve m0 [⟨"GET", "/ping"⟩]) ⟨"GET", "/metrics"⟩).2.body
        (codeLine "404" 0)) := by
  constructor
  · obtain ⟨m0, h0, _, _, h, _⟩ :=
      metrics_exposition [⟨"GET", "/ping"⟩, ⟨"GET", "/nope"⟩, ⟨"GET", "/ping/"⟩] "GET"
    exact ⟨m0, h0, h ⟨⟨"GET", "/nope"⟩, by decide, by decide, by decide, by decide⟩⟩
  · obtain ⟨m0, h0, _, _, _, h⟩ := metrics_exposition [⟨"GET", "/ping"⟩] "GET"
    exact ⟨m0, h0, h (by decide) 0⟩

/-! ## The handlers and the routing table -/

/-- C7, as stated, fails: called with the path `/ping`, which is not `/`, the
catch-all handler answers 200 with the help text and increments nothing; the
same holds for `/metrics`. -/
theorem catchAll_ping_path_is_help :
    "/ping" ≠ "/" ∧
    catchAll ⟨0, ⟨[]⟩, []⟩ ResponseWriter.fresh ⟨"GET", "/ping"⟩
      = (⟨0, ⟨[]⟩, []⟩, ⟨200, "Available endpoints:\n- /ping\n- /metrics"⟩) ∧
    catchAll ⟨0, ⟨[]⟩, []⟩ ResponseWriter.fresh ⟨"GET", "/metrics"⟩
      = (⟨0, ⟨[]⟩, []⟩, ⟨200, "Available endpoints:\n- /ping\n- /metrics"⟩) ∧
    ¬ (∀ (m : Metrics) (r : Request),
        ((catchAll m ResponseWriter.fresh r).2
            = ⟨200, "Available endpoints:\n- /ping\n- /metrics"⟩ ↔ r.path = "/") ∧
        (r.path ≠ "/" →
          (catchAll m ResponseWriter.fresh r).2.status = 404 ∧
          (catchAll m ResponseWriter.fresh r).1.httpRequestsTotal.value "404"
            = m.httpRequestsTotal.value "404" + 1)) := by
  refine ⟨by decide, by decide, by decide, ?_⟩
  intro h
  have h1 := (h ⟨0, ⟨[]⟩, []⟩ ⟨"GET", "/ping"⟩).1.mp (by decide)
  exact absurd h1 (by decide)

/-- C7, amended: the catch-all handler, as a function of the request path,
answers 200 with the help text, and increments nothing, if and only if the path
is one of `/`, `/ping` and `/metrics`; for every other path it increments the
404 series by one, changes nothing else, and answers 404. -/
theorem catchAll_by_path (m : Metrics) (r : Request) :
    ((catchAll m ResponseWriter.fresh r).2
        = ⟨200, "Available endpoints:\n- /ping\n- /metrics"⟩ ↔
      (r.path = "/" ∨ r.path = "/ping" ∨ r.path = "/metrics")) ∧
    ((r.path = "/" ∨ r.path = "/ping" ∨ r.path = "/metrics") →
      (catchAll m ResponseWriter.fresh r).1 = m) ∧
    ((r.path ≠ "/" ∧ r.path ≠ "/ping" ∧ r.path ≠ "/metrics") →
      (catchAll m ResponseWriter.fresh r).2 = ⟨404, "404 page not found\n"⟩ ∧
      (catchAll m ResponseWriter.fresh r).1 = inc404 m ∧
      (catchAll m ResponseWriter.fresh r).1.httpRequestsTotal.value "404"
        = m.httpRequestsTotal.value "404" + 1 ∧
      (catchAll m ResponseWriter.fresh r).1.pingCounter = m.pingCounter) := by
  by_cases h : r.path ≠ "/" ∧ r.path ≠ "/ping" ∧ r.path ≠ "/metrics"
  · have e : catchAll m ResponseWriter.fresh r = (inc404 m, ⟨404, "404 page not found\n"⟩) := by
      simp [catchAll, h, NotFound, ResponseWriter.fresh, empty_append]
    rw [e]
    refine ⟨⟨fun h1 => ?_, fun h1 => ?_⟩, fun h1 => ?_, fun _ => ⟨rfl, rfl, ?_, rfl⟩⟩
    · have h404 : (404 : Nat) = 200 := congrArg ResponseWriter.status h1
      exact absurd h404 (by decide)
    · rcases h1 with h1 | h1 | h1
      · exact absurd h1 h.1
      · exact absurd h1 h.2.1
      · exact absurd h1 h.2.2
    · rcases h1 with h1 | h1 | h1
      · exact absurd h1 h.1
      · exact absurd h1 h.2.1
      · exact absurd h1 h.2.2
    · simp [value_inc404]
  · have e : catchAll m ResponseWriter.fresh r
        = (m, ⟨200, "Available endpoints:\n- /ping\n- /metrics"⟩) := by
      simp only [catchAll, if_neg h]
      simp [Fprintf, ResponseWriter.fresh, empty_append]
    have hk : r.path = "/" ∨ r.path = "/ping" ∨ r.path = "/metrics" := by
      by_contra hc
      exact h ⟨fun x => hc (Or.inl x), fun x => hc (Or.inr (Or.inl x)),
        fun x => hc (Or.inr (Or.inr x))⟩
    rw [e]
    exact ⟨⟨fun _ => hk, fun _ => rfl⟩, fun _ => rfl, fun h1 => absurd h1 h⟩

/-- C7, amended, at the paths `/`, `/metrics` and `/nope`. -/
theorem catchAll_by_path_witness :
    (catchAll ⟨2, ⟨[("404", 5)]⟩, []⟩ ResponseWriter.fresh ⟨"GET", "/"⟩).2
      = ⟨200, "Available endpoints:\n- /ping\n- /metrics"⟩ ∧
    (catchAll ⟨2, ⟨[("404", 5)]⟩, []⟩ ResponseWriter.fresh ⟨"GET", "/metrics"⟩).1
      = ⟨2, ⟨[("404", 5)]⟩, []⟩ ∧
    (catchAll ⟨2, ⟨[("404", 5)]⟩, []⟩ ResponseWriter.fresh ⟨"GET", "/nope"⟩).2
      = ⟨404, "404 page not found\n"⟩ :=
  ⟨(catchAll_by_path ⟨2, ⟨[("404", 5)]⟩, []⟩ ⟨"GET", "/"⟩).1.mpr (Or.inl rfl),
   (catchAll_by_path ⟨2, ⟨[("404", 5)]⟩, []⟩ ⟨"GET", "/metrics"⟩).2.1 (by decide),
   ((catchAll_by_path ⟨2, ⟨[("404", 5)]⟩, []⟩ ⟨"GET", "/nope"⟩).2.2
      ⟨by decide, by decide, by decide⟩).1⟩

/-- C8: under the routing table of `main`, the metrics handler runs exactly for
the path `/metrics`, so its path-mismatch branch is never taken; the catch-all
handler never runs for `/ping` or `/metrics`; and every 404 answer of the server
is the catch-all handler's. -/
theorem routing_table_dispatch (path : String) :
    (route path = .metricsHandler ↔ path = "/metrics") ∧
    (route path = .ping ↔ path = "/ping") ∧
    ¬ (route path = .metricsHandler ∧ path ≠ "/metrics") ∧
    (route path = .catchAll → path ≠ "/ping" ∧ path ≠ "/metrics") ∧
    (∀ (m : Metrics) (meth : String),
      route path = .metricsHandler →
        dispatch m ⟨meth, path⟩ = (m, promhttpHandler m ResponseWriter.fresh)) ∧
    (∀ (m : Metrics) (meth : String),
      (dispatch m ⟨meth, path⟩).2.status = 404 →
        route path = .catchAll ∧
        dispatch m ⟨meth, path⟩ = catchAll m ResponseWriter.fresh ⟨meth, path⟩) := by
  by_cases h1 : path = "/ping"
  · subst h1
    refine ⟨by decide, by decide, by decide, by decide, ?_, ?_⟩
    · intro m meth h; exact absurd h (by decide)
    · intro m meth h
      rw [dispatch_ping] at h
      have h200 : (200 : Nat) = 404 := h
      exact absurd h200 (by decide)
  by_cases h2 : path = "/metrics"
  · subst h2
    refine ⟨by decide, by decide, by decide, by decide, ?_, ?_⟩
    · intro m meth _
      simp [dispatch, route_metrics, Handler.run, metricsHandler]
    · intro m meth h
      rw [dispatch_metrics] at h
      have h200 : (200 : Nat) = 404 := h
      exact absurd h200 (by decide)
  have hr := route_other path h1 h2
  refine ⟨?_, ?_, ?_, ?_, ?_, ?_⟩
  · rw [hr]; exact ⟨fun h => absurd h (by decide), fun h => absurd h h2⟩
  · rw [hr]; exact ⟨fun h => absurd h (by decide), fun h => absurd h h1⟩
  · rw [hr]; exact fun h => absurd h.1 (by decide)
  · exact fun _ => ⟨h1, h2⟩
  · intro m meth h
    rw [hr] at h
    exact absurd h (by decide)
  · intro m meth _
    exact ⟨hr, by simp [dispatch, hr, Handler.run]⟩

/-- C8, at the paths `/metrics/x` and `/metrics`. -/
theorem routing_table_dispatch_witness :
    (route "/metrics/x" = .catchAll ∧
      dispatch packageVars ⟨"GET", "/metrics/x"⟩
        = catchAll packageVars ResponseWriter.fresh ⟨"GET", "/metrics/x"⟩) ∧
    dispatch packageVars ⟨"GET", "/metrics"⟩
      = (packageVars, promhttpHandler packageVars ResponseWriter.fresh) ∧
    ("/nope" ≠ "/ping" ∧ "/nope" ≠ "/metrics") :=
  ⟨(routing_table_dispatch "/metrics/x").2.2.2.2.2 packageVars "GET" (by decide),
   (routing_table_dispatch "/metrics").2.2.2.2.1 packageVars "GET" (by decide),
   (routing_table_dispatch "/nope").2.2.2.1 (by decide)⟩

/-- C9, as stated, fails for the metrics handler: two runs on the path
`/metrics`, one with `ping_request_count` at 0 and one with it at 1, answer with
different bodies. -/
theorem metricsHandler_response_depends_on_counters :
    (metricsHandler ⟨0, ⟨[]⟩, [Collector.pingCounter, Collector.httpRequestsTotal]⟩
        ResponseWriter.fresh ⟨"GET", "/metrics"⟩).2
      ≠ (metricsHandler ⟨1, ⟨[]⟩, [Collector.pingCounter, Collector.httpRequestsTotal]⟩
        ResponseWriter.fresh ⟨"GET", "/metrics"⟩).2 ∧
    ¬ ((SameResponse ping ∧ SameEffect ping) ∧
       (SameResponse metricsHandler ∧ SameEffect metricsHandler) ∧
       (SameResponse catchAll ∧ SameEffect catchAll)) := by
  have hne : (metricsHandler ⟨0, ⟨[]⟩, [Collector.pingCounter, Collector.httpRequestsTotal]⟩
        ResponseWriter.fresh ⟨"GET", "/metrics"⟩).2
      ≠ (metricsHandler ⟨1, ⟨[]⟩, [Collector.pingCounter, Collector.httpRequestsTotal]⟩
        ResponseWriter.fresh ⟨"GET", "/metrics"⟩).2 := by decide
  exact ⟨hne, fun h => hne (h.2.1.1 _ _ "GET" "GET" "/metrics")⟩

/-- C9, amended: the ping handler and the catch-all handler answer alike and
increment alike on two runs with the same path, whatever the methods and the
counter values. So does the metrics handler as to what it increments, and as to
its answer on every path other than `/metrics`; its answer does not depend on
the method; on the path `/metrics` its answer is the exposition of the current
counter values. -/
theorem handlers_function_of_path :
    (SameResponse ping ∧ SameEffect ping) ∧
    (SameResponse catchAll ∧ SameEffect catchAll) ∧
    SameEffect metricsHandler ∧
    (∀ (m : Metrics) (meth1 meth2 path : String),
      (metricsHandler m ResponseWriter.fresh ⟨meth1, path⟩).2
        = (metricsHandler m ResponseWriter.fresh ⟨meth2, path⟩).2) ∧
    (∀ (m1 m2 : Metrics) (meth1 meth2 path : String), path ≠ "/metrics" →
      (metricsHandler m1 ResponseWriter.fresh ⟨meth1, path⟩).2
        = (metricsHandler m2 ResponseWriter.fresh ⟨meth2, path⟩).2) ∧
    (∀ (m : Metrics) (meth : String),
      (metricsHandler m ResponseWriter.fresh ⟨meth, "/metrics"⟩).2
        = ⟨200, renderLines (gather m)⟩) := by
  refine ⟨⟨?_, sameEffect_ping⟩, ⟨?_, sameEffect_catchAll⟩, sameEffect_metricsHandler,
    ?_, ?_, ?_⟩
  · intro m1 m2 meth1 meth2 path
    rfl
  · intro m1 m2 meth1 meth2 path
    by_cases h : path ≠ "/" ∧ path ≠ "/ping" ∧ path ≠ "/metrics"
    · simp only [catchAll, if_pos h]
    · simp only [catchAll, if_neg h]
  · intro m meth1 meth2 path
    simp only [metricsHandler]
  · intro m1 m2 meth1 meth2 path h
    simp only [metricsHandler, ne_eq, h, not_false_eq_true, if_true]
  · intro m meth
    simp [metricsHandler, promhttpHandler, Fprintf, ResponseWriter.fresh, empty_append]

/-- C9, amended, on two runs of the metrics handler with the path `/x`. -/
theorem handlers_function_of_path_witness :
    (metricsHandler ⟨0, ⟨[]⟩, []⟩ ResponseWriter.fresh ⟨"GET", "/x"⟩).2
      = (metricsHandler ⟨4, ⟨[("404", 9)]⟩, []⟩ ResponseWriter.fresh ⟨"POST", "/x"⟩).2 :=
  handlers_function_of_path.2.2.2.2.1 ⟨0, ⟨[]⟩, []⟩ ⟨4, ⟨[("404", 9)]⟩, []⟩ "GET" "POST" "/x"
    (by decide)

end HttpServer
